import Mathlib

/-!
Verification of the glue logic of a YouTube-to-MP3 bundling utility
(`src/app.py`).  The pure list/string processing functions are translated
directly; the effectful worker `download_one` is embedded as a pure function
over an explicit environment (`Env`) describing the outcomes of the external
media-extraction backend, the rename operation, and the file system, which is
threaded as a list of existing file paths.  Unicode classes used by Python's
`re` module are modelled by explicit ASCII-plus-common-Unicode character
predicates; the exact Unicode tables are not reproduced.
-/

/-! ### Python character classes -/

/-- Characters treated as whitespace by Python's `str.strip()` and the regex
class `\s` (the common members of the Unicode whitespace table). -/
def pyIsSpace (c : Char) : Bool :=
  c == ' ' || c == '\t' || c == '\n' || c == '\r' || c == '\x0b' || c == '\x0c' ||
  c == '\x1c' || c == '\x1d' || c == '\x1e' || c == '\x1f' || c == '\x85' || c == '\xa0' ||
  c == '\u1680' || ('\u2000' ≤ c && c ≤ '\u200a') || c == '\u2028' || c == '\u2029' ||
  c == '\u202f' || c == '\u205f' || c == '\u3000'

/-- Line boundary characters recognised by Python's `str.splitlines`
(the pair `"\r\n"` counts as a single boundary and is handled separately). -/
def isLineBreak (c : Char) : Bool :=
  c == '\n' || c == '\r' || c == '\x0b' || c == '\x0c' || c == '\x1c' || c == '\x1d' ||
  c == '\x1e' || c == '\x85' || c == '\u2028' || c == '\u2029'

/-- Word characters of the regex class `\w` (ASCII letters, digits and the
underscore; Unicode word characters beyond ASCII are not modelled). -/
def isWordChar (c : Char) : Bool :=
  c.isAlpha || c.isDigit || c == '_'

/-! ### Python string primitives -/

/-- Drop characters satisfying `p` from both ends of a character list; this is
Python's `str.strip` for the class `p`. -/
def stripWhileL (p : Char → Bool) (l : List Char) : List Char :=
  ((l.dropWhile p).reverse.dropWhile p).reverse

/-- Python's `str.strip()` with no argument. -/
def pyStripL (l : List Char) : List Char :=
  stripWhileL pyIsSpace l

/-- Python's `str.startswith` on character lists. -/
def startsWithL (pre s : List Char) : Bool :=
  s.take pre.length == pre

/-- Python's `str.endswith` on character lists. -/
def endsWithL (suf s : List Char) : Bool :=
  s.drop (s.length - suf.length) == suf

/-- Worker for `splitlinesL`: `cur` is the current line accumulated in reverse. -/
def splitlinesAux (cur : List Char) : List Char → List (List Char)
  | [] => if cur.isEmpty then [] else [cur.reverse]
  | '\r' :: '\n' :: rest => cur.reverse :: splitlinesAux [] rest
  | c :: rest =>
    if isLineBreak c then cur.reverse :: splitlinesAux [] rest
    else splitlinesAux (c :: cur) rest

/-- Python's `str.splitlines()`: split at line boundaries, no trailing empty
line for input ending in a boundary, empty input gives no lines. -/
def splitlinesL (l : List Char) : List (List Char) :=
  splitlinesAux [] l

/-- Replace every maximal run of characters satisfying `sep` by the single
character `rep`; this is `re.sub(sep+, rep, _)`.  The flag records whether the
previous character belonged to a run. -/
def collapseRuns (sep : Char → Bool) (rep : Char) : List Char → Bool → List Char
  | [], _ => []
  | c :: rest, inRun =>
    if sep c then
      if inRun then collapseRuns sep rep rest true
      else rep :: collapseRuns sep rep rest true
    else c :: collapseRuns sep rep rest false

/-! ### URL Normalizer (`parse_urls`, app.py lines 19-26) -/

/-- The filter applied to each stripped line: keep non-empty lines whose first
character is not `#` (source: `if ln and not ln.startswith("#")`). -/
def keepLine (ln : String) : Bool :=
  !(ln == "") && !(startsWithL "#".data ln.data)

/-- The deduplication loop of `parse_urls`: `seen` is the set of already
emitted strings, the output preserves first-seen order. -/
def dedupeGo (seen : List String) : List String → List String
  | [] => []
  | u :: rest =>
    if seen.contains u then dedupeGo seen rest
    else u :: dedupeGo (u :: seen) rest

/-- `parse_urls` (app.py lines 19-26): split into lines, strip each line, drop
empty and `#`-prefixed lines, deduplicate keeping first occurrences. -/
def parse_urls (text : String) : List String :=
  let lines := (splitlinesL text.data).map (fun l => String.mk (pyStripL l))
  let urls := lines.filter keepLine
  dedupeGo [] urls

/-- Specification-side description of first-occurrence deduplication: keep the
head and recursively deduplicate the tail with all copies of the head removed. -/
def dedupFirst : List String → List String
  | [] => []
  | x :: xs => x :: dedupFirst (xs.filter (fun y => !(y == x)))
termination_by l => l.length
decreasing_by
  simp only [List.length_cons]
  exact Nat.lt_succ_of_le (List.length_filter_le _ _)

/-! ### Filename sanitizers (`slugify`, `human_filename`, app.py lines 29-43) -/

/-- Characters collapsed to `_` by `slugify`: the regex class `[\s_-]`. -/
def isSlugSep (c : Char) : Bool :=
  pyIsSpace c || c == '_' || c == '-'

/-- Character-list core of `slugify`. -/
def slugifyL (l : List Char) (maxlen : Nat) : List Char :=
  let s1 := pyStripL (l.filter (fun c => isWordChar c || pyIsSpace c || c == '-'))
  let s2 := collapseRuns isSlugSep '_' s1 false
  let s3 := stripWhileL (fun c => c == '_') (s2.take maxlen)
  if s3 = [] then "untitled".data else s3

/-- `slugify` (app.py lines 29-32): drop characters outside `[\w\s-]`, strip
whitespace, collapse `[\s_-]+` runs to `_`, truncate to `maxlen`, strip
underscores, fall back to `"untitled"`.  The source default for `maxlen` is 80. -/
def slugify (name : String) (maxlen : Nat) : String :=
  String.mk (slugifyL name.data maxlen)

/-- The Windows-forbidden filename characters removed by `human_filename`. -/
def isWinForbidden (c : Char) : Bool :=
  c == '<' || c == '>' || c == ':' || c == '"' || c == '/' || c == '\\' ||
  c == '|' || c == '?' || c == '*'

/-- Character-list core of `human_filename`. -/
def human_filenameL (l : List Char) (maxlen : Nat) : List Char :=
  let t1 := l.filter (fun c => !(isWinForbidden c))
  let t2 := collapseRuns pyIsSpace ' ' t1 false
  let t3 := stripWhileL (fun c => c == ' ' || c == '.' || c == '-' || c == '_') t2
  (if t3 = [] then "untitled".data else t3).take maxlen

/-- `human_filename` (app.py lines 35-43): empty input gives `"untitled"`,
otherwise remove forbidden characters, collapse whitespace runs to single
spaces, strip `" .-_"` from the ends, fall back to `"untitled"`, truncate.
The source default for `maxlen` is 120. -/
def human_filename (text : String) (maxlen : Nat) : String :=
  if text = "" then "untitled"
  else String.mk (human_filenameL text.data maxlen)

/-! ### Metadata fallbacks (`compute_artist_title`, app.py lines 46-50) -/

/-- Python's `a or b` for an optional string `a`: `None` and `""` are falsy. -/
def orFalsy (a b : Option String) : Option String :=
  match a with
  | some s => if s = "" then b else some s
  | none => b

/-- Python's `a or d` with a string default `d`. -/
def orFalsyD (a : Option String) (d : String) : String :=
  match a with
  | some s => if s = "" then d else s
  | none => d

/-! ### The Fetch-Transcode Worker model (`download_one`, app.py lines 122-197) -/

/-- The metadata dictionary for one media item, as used by `download_one`:
the optional string fields read via `info.get`, plus the file name the backend
would produce for it (`ydl.prepare_filename(info)`), supplied by the
environment since the naming is done by the external library. -/
structure InfoDict where
  title : Option String
  vidId : Option String
  artist : Option String
  uploader : Option String
  channel : Option String
  track : Option String
  alt_title : Option String
  prepared : String
deriving DecidableEq

/-- A top-level `extract_info` result: its own fields, and the optional
`"entries"` key (a present-but-empty list is Python-falsy and is modelled by
`some []`). -/
structure TopInfo where
  self : InfoDict
  entries : Option (List InfoDict)
deriving DecidableEq

/-- Outcome of one `extract_info(url, download=True)` call: an exception
(`DownloadError` or any other, with its message), a falsy result, or an info
dictionary. -/
inductive ExtractResult where
  | raises (downloadError : Bool) (msg : String)
  | noResult
  | okInfo (top : TopInfo)
deriving DecidableEq

/-- The file system, as the list of existing file paths (in directory-listing
order).  Sub-directories are not modelled; `os.path.join dir name` is
`dir ++ "/" ++ name` and `os.path.abspath` is the identity on these
already-canonical paths. -/
abbrev Fs := List String

/-- `os.path.exists`: the empty path never exists, other paths exist when the
file system contains them. -/
def pyExists (fs : Fs) (p : String) : Bool :=
  !(p == "") && fs.contains p

/-- The external world of one `download_one` call: the first extraction
attempt, the fallback attempt (consulted only when the first returns a falsy
result), the files the successful download wrote into the working directory,
whether the rename step raises, and the `os.path.getsize` oracle (`none`
models an exception). -/
structure Env where
  extract1 : ExtractResult
  extract2 : ExtractResult
  created : List String
  renameFails : Bool
  getsize : String → Option Nat

/-- The Fetch Outcome record built by `download_one` (app.py line 124).
`filesize_mb` holds the size in megabytes; the source also rounds to two
decimals with float `round`, which is not modelled. -/
structure FetchRec where
  url : String
  title : Option String
  vidId : Option String
  status : String
  path : Option String
  error : Option String
  filesize_mb : Option ℚ

/-- `compute_artist_title` (app.py lines 46-50): artist from
`artist or uploader or channel or "Unknown Artist"`, title from
`track or alt_title or title or "Unknown Title"`, both sanitized. -/
def compute_artist_title (info : InfoDict) : String × String :=
  let artist := orFalsyD (orFalsy info.artist (orFalsy info.uploader info.channel)) "Unknown Artist"
  let title := orFalsyD (orFalsy info.track (orFalsy info.alt_title info.title)) "Unknown Title"
  (human_filename artist 80, human_filename title 120)

/-- `os.path.basename` on a character list: everything after the last `/`. -/
def basenameL (l : List Char) : List Char :=
  (l.reverse.takeWhile (fun c => !(c == '/'))).reverse

/-- `os.path.basename`. -/
def basename (p : String) : String :=
  String.mk (basenameL p.data)

/-- `os.path.splitext` on a character list: split off the extension of the
final path component; a dot needs a preceding non-dot character in the
component to start an extension. -/
def splitextL (l : List Char) : List Char × List Char :=
  let base := basenameL l
  if base.contains '.' then
    let extNoDot := (base.reverse.takeWhile (fun c => !(c == '.'))).reverse
    let root := base.take (base.length - extNoDot.length - 1)
    if root.any (fun c => !(c == '.')) then
      (l.take (l.length - extNoDot.length - 1), '.' :: extNoDot)
    else (l, [])
  else (l, [])

/-- `mp3_path_from_prepared` (app.py lines 117-119): replace the extension of
the prepared file name by `.mp3`. -/
def mp3_path_from_prepared (prepared : String) : String :=
  String.mk (splitextL prepared.data).1 ++ ".mp3"

/-- `os.listdir` for the working directory: the names (relative to `dir`) of
the files directly inside `dir`, in file-system order. -/
def listdirNames (fs : Fs) (dir : String) : List String :=
  fs.filterMap (fun p =>
    let pre := (dir ++ "/").data
    if p.data.take pre.length = pre then
      let rest := p.data.drop pre.length
      if rest.contains '/' || rest.isEmpty then none else some (String.mk rest)
    else none)

/-- The file-location step of `download_one` (app.py lines 156-160): if the
expected `.mp3` path does not exist, scan the directory for the first name
ending in `"{vid}.mp3"`. -/
def findMp3Path (fs : Fs) (dir : String) (vid : String) (mp3p : String) : String :=
  if pyExists fs mp3p then mp3p
  else
    match (listdirNames fs dir).find? (fun name =>
        endsWithL ".mp3".data name.data && endsWithL (vid ++ ".mp3").data name.data) with
    | some name => dir ++ "/" ++ name
    | none => mp3p

/-- Fuel-based worker for the decimal digits of a natural number; fuel at
least `n` is always sufficient since the value shrinks by a factor of ten per
step. -/
def natStrGo : Nat → Nat → List Char
  | 0, n => [Char.ofNat (48 + n % 10)]
  | fuel + 1, n =>
    if n < 10 then [Char.ofNat (48 + n)]
    else natStrGo fuel (n / 10) ++ [Char.ofNat (48 + n % 10)]

/-- Decimal digits of a natural number, modelling Python's `str(int)`. -/
def natStrL (n : Nat) : List Char :=
  natStrGo n n

/-- The collision-avoiding candidate name `f"{target_base} ({n}).mp3"` inside
the output directory (app.py line 174). -/
def candName (dir base : String) (n : Nat) : String :=
  dir ++ "/" ++ base ++ " (" ++ String.mk (natStrL n) ++ ").mp3"

/-- The `while True` search of app.py lines 172-178, with explicit fuel: the
first `n` (starting from the given one) whose candidate name is unused.  Fuel
`fs.length + 1` is always sufficient (see `firstFree_spec`). -/
def firstFreeGo (fs : Fs) (dir base : String) : Nat → Nat → Nat
  | 0, n => n
  | fuel + 1, n =>
    if pyExists fs (candName dir base n) then firstFreeGo fs dir base fuel (n + 1)
    else n

/-- The first free disambiguator index, starting from 1. -/
def firstFree (fs : Fs) (dir base : String) : Nat :=
  firstFreeGo fs dir base (fs.length + 1) 1

/-- The rename step of `download_one` (app.py lines 162-183): no rename when
the produced path already equals the target; any exception
(`env.renameFails`) keeps the original path; otherwise rename to the target,
disambiguated with ` (n)` when the target exists.  Returns the final path and
the updated file system. -/
def renameStep (env : Env) (fs : Fs) (dir mp3_path target_base : String) : String × Fs :=
  let target_path := dir ++ "/" ++ target_base ++ ".mp3"
  if mp3_path = target_path then (mp3_path, fs)
  else if env.renameFails then (mp3_path, fs)
  else
    let target :=
      if pyExists fs target_path then candName dir target_base (firstFree fs dir target_base)
      else target_path
    (target, (fs.erase mp3_path) ++ [target])

/-- The selection of app.py lines 149-150: if the result has a non-empty
`"entries"` list, use its first member. -/
def selectInfo (top : TopInfo) : InfoDict :=
  match top.entries with
  | some (e :: _) => e
  | _ => top.self

/-- The `.mp3` path `download_one` resolves for an extraction result
(app.py lines 153-160). -/
def resolvedMp3 (fs : Fs) (dir : String) (top : TopInfo) : String :=
  let info := selectInfo top
  findMp3Path fs dir (info.vidId.getD "") (mp3_path_from_prepared info.prepared)

/-- The `"Artist - Title"` base name of app.py lines 164-165. -/
def targetBaseOf (top : TopInfo) : String :=
  let p := compute_artist_title (selectInfo top)
  human_filename (p.1 ++ " - " ++ p.2) 180

/-- The post-extraction part of `download_one` (app.py lines 149-192): locate
the produced `.mp3`, rename it, write tags (tag-writing never changes the
outcome and is not modelled beyond that), and fill the outcome record; or
record the file-not-found failure. -/
def processInfo (url dir : String) (env : Env) (fs : Fs) (top : TopInfo) : FetchRec × Fs :=
  let info := selectInfo top
  let mp3_path := resolvedMp3 fs dir top
  if pyExists fs mp3_path then
    let rn := renameStep env fs dir mp3_path (targetBaseOf top)
    ({ url := url, title := info.title, vidId := info.vidId, status := "ok",
       path := some rn.1, error := none,
       filesize_mb := (env.getsize rn.1).map (fun b => (b : ℚ) / (1024 * 1024)) }, rn.2)
  else
    ({ url := url, title := info.title, vidId := info.vidId, status := "failed",
       path := none, error := some "File MP3 tidak ditemukan setelah konversi.",
       filesize_mb := none }, fs)

/-- `download_one` (app.py lines 122-197).  The record starts as `pending`
(line 124); every exit path overwrites the status.  `os.makedirs` on entry is
outside the `try` block and is not modelled (it does not touch the record). -/
def download_one (url output_dir : String) (env : Env) (fs : Fs) : FetchRec × Fs :=
  match env.extract1 with
  | .raises de msg =>
    ({ url := url, title := none, vidId := none, status := "failed", path := none,
       error := some ((if de then "DownloadError: " else "Error: ") ++ msg),
       filesize_mb := none }, fs)
  | .noResult =>
    match env.extract2 with
    | .raises _ msg =>
      ({ url := url, title := none, vidId := none, status := "failed", path := none,
         error := some ("Fallback extractor gagal: " ++ msg),
         filesize_mb := none }, fs)
    | .noResult =>
      ({ url := url, title := none, vidId := none, status := "failed", path := none,
         error := some "Tidak dapat mengambil metadata (fallback juga gagal).",
         filesize_mb := none }, fs)
    | .okInfo top => processInfo url output_dir env (fs ++ env.created) top
  | .okInfo top => processInfo url output_dir env (fs ++ env.created) top

/-! ### Archive Builder (`make_zip_bytes`, app.py lines 200-207) -/

/-- Zip compression methods relevant to the source. -/
inductive ZipMethod where
  | stored
  | deflated
deriving DecidableEq

/-- One archive entry: the source path written and the name it is stored
under. -/
structure ZipEntry where
  src : String
  arcname : String
deriving DecidableEq

/-- The in-memory archive: compression settings and entries in write order. -/
structure ZipFile where
  compression : ZipMethod
  compresslevel : Nat
  entries : List ZipEntry
deriving DecidableEq

/-- `zf.write(p, arcname=os.path.basename(p))`: append one entry. -/
def zipWrite (z : ZipFile) (src arcname : String) : ZipFile :=
  { z with entries := z.entries ++ [{ src := src, arcname := arcname }] }

/-- The loop body of `make_zip_bytes`:
`if p and os.path.exists(p): zf.write(p, arcname=os.path.basename(p))`. -/
def zipStep (fs : Fs) (z : ZipFile) (p : String) : ZipFile :=
  if !(p == "") && pyExists fs p then zipWrite z p (basename p) else z

/-- `make_zip_bytes` (app.py lines 200-207): open a deflate/level-9 archive
and write every truthy, existing path under its base name, in input order. -/
def make_zip_bytes (fs : Fs) (file_paths : List String) : ZipFile :=
  file_paths.foldl (zipStep fs)
    { compression := ZipMethod.deflated, compresslevel := 9, entries := [] }

/-! ### Playlist expansion (`expand_playlists`, app.py lines 261-280) -/

/-- One step of the inner loop of `expand_playlists`:
`if vu not in url_to_group: url_to_group[vu] = ptitle; cnt += 1`. -/
def addStep (ptitle : String) (mc : List (String × String) × Nat) (vu : String) :
    List (String × String) × Nat :=
  if (List.lookup vu mc.1).isSome then mc
  else (mc.1 ++ [(vu, ptitle)], mc.2 + 1)

/-- The inner loop of `expand_playlists` for one playlist `(ptitle, vurls)`:
insert each member link into the link-to-group map if absent, counting fresh
insertions. -/
def addGroupLinks (m : List (String × String)) (ptitle : String) (vurls : List String) :
    List (String × String) × Nat :=
  vurls.foldl (addStep ptitle) (m, 0)

/-- One step of the outer loop of `expand_playlists`: expand one playlist link,
or record the failure row in the summary. -/
def expandStep (fetch : String → Option (String × List String))
    (acc : List (String × String) × List (String × Nat × String)) (purl : String) :
    List (String × String) × List (String × Nat × String) :=
  match fetch purl with
  | some pr =>
    let mc := addGroupLinks acc.1 pr.1 pr.2
    (mc.1, acc.2 ++ [(pr.1, mc.2, purl)])
  | none => (acc.1, acc.2 ++ [("Gagal baca playlist (" ++ purl ++ ")", 0, purl)])

/-- `expand_playlists` (app.py lines 261-280) over an oracle `fetch` giving
each playlist's expansion (`none` models `expand_single_playlist` raising).
Returns the link-to-group map (an insertion-ordered association list, as a
Python dict) and the summary list. -/
def expand_playlists (fetch : String → Option (String × List String)) (pl_urls : List String) :
    List (String × String) × List (String × Nat × String) :=
  pl_urls.foldl (expandStep fetch) ([], [])

/-- Specification-side description of the grouping rule: the group of a link
is the title of the first successfully expanded playlist containing it. -/
def firstGroup (fetch : String → Option (String × List String)) :
    List String → String → Option String
  | [], _ => none
  | purl :: rest, url =>
    match fetch purl with
    | some pr => if url ∈ pr.2 then some pr.1 else firstGroup fetch rest url
    | none => firstGroup fetch rest url

/-! ### Concrete scenario data for the collision claims -/

/-- Metadata of the first of two tracks that sanitize to the same base name. -/
def infoA : InfoDict :=
  { title := some "song1", vidId := some "id1", artist := some "A", uploader := none,
    channel := none, track := some "T", alt_title := none,
    prepared := "out/song1 - id1.webm" }

/-- Metadata of the second track, same artist and track title. -/
def infoB : InfoDict :=
  { title := some "song2", vidId := some "id2", artist := some "A", uploader := none,
    channel := none, track := some "T", alt_title := none,
    prepared := "out/song2 - id2.webm" }

/-- Environment of the first fetch: extraction succeeds and writes its file. -/
def envA : Env :=
  { extract1 := ExtractResult.okInfo { self := infoA, entries := none },
    extract2 := ExtractResult.noResult,
    created := ["out/song1 - id1.mp3"],
    renameFails := false,
    getsize := fun _ => none }

/-- Environment of the second fetch. -/
def envB : Env :=
  { extract1 := ExtractResult.okInfo { self := infoB, entries := none },
    extract2 := ExtractResult.noResult,
    created := ["out/song2 - id2.mp3"],
    renameFails := false,
    getsize := fun _ => none }

/-- Environment whose first extraction raises a `DownloadError`. -/
def envErr : Env :=
  { extract1 := ExtractResult.raises true "boom",
    extract2 := ExtractResult.noResult,
    created := [],
    renameFails := false,
    getsize := fun _ => none }

/-- Environment of a successful fetch whose rename step raises. -/
def envRF : Env :=
  { extract1 := ExtractResult.okInfo { self := infoA, entries := none },
    extract2 := ExtractResult.noResult,
    created := ["out/song1 - id1.mp3"],
    renameFails := true,
    getsize := fun _ => none }

/-- A concrete playlist oracle: one playlist with one member link. -/
def fetchC : String → Option (String × List String) :=
  fun p => if p == "pl1" then some ("G", ["v1"]) else none

/-! ## General helper lemmas -/

/-- The character data of `String.mk`. -/
theorem data_mk (l : List Char) : (String.mk l).data = l := rfl

/-- A string with non-empty character data is not the empty string. -/
theorem mk_ne_empty {l : List Char} (h : l ≠ []) : String.mk l ≠ "" := by
  intro he
  exact h (congrArg String.data he)

/-- Appending a non-empty string on the right gives a non-empty string. -/
theorem append_ne_empty_right (a : String) {b : String} (hb : b ≠ "") : a ++ b ≠ "" := by
  intro h
  have hd := congrArg String.data h
  rw [String.data_append] at hd
  exact hb (String.ext (List.append_eq_nil.1 hd).2)

/-- Appending a non-empty string on the left gives a non-empty string. -/
theorem append_ne_empty_left {a : String} (b : String) (ha : a ≠ "") : a ++ b ≠ "" := by
  intro h
  have hd := congrArg String.data h
  rw [String.data_append] at hd
  exact ha (String.ext (List.append_eq_nil.1 hd).1)

/-- A slash-joined path is never the empty string. -/
theorem join_ne_empty (dir name : String) : dir ++ "/" ++ name ≠ "" := by
  intro h
  have hd := congrArg String.data h
  simp [String.data_append] at hd

/-! ## Deduplication: the `parse_urls` loop refines `dedupFirst` -/

/-- Unfolding of `dedupFirst` on the empty list. -/
theorem dedupFirst_nil : dedupFirst [] = [] := by
  simp [dedupFirst]

/-- Unfolding of `dedupFirst` on a cons. -/
theorem dedupFirst_cons (x : String) (xs : List String) :
    dedupFirst (x :: xs) = x :: dedupFirst (xs.filter (fun y => !(y == x))) := by
  simp [dedupFirst]

/-- The `seen`-set loop of `parse_urls` equals the recursive first-occurrence
deduplication restricted to the not-yet-seen elements. -/
theorem dedupeGo_eq_dedupFirst (l : List String) :
    ∀ seen : List String, dedupeGo seen l = dedupFirst (l.filter (fun x => !(seen.contains x))) := by
  induction l with
  | nil => intro seen; simp [dedupeGo, dedupFirst_nil]
  | cons u rest ih =>
    intro seen
    by_cases hm : u ∈ seen
    · have hc : seen.contains u = true := List.elem_iff.2 hm
      rw [dedupeGo]
      simp only [hc, if_true]
      rw [ih seen]
      congr 1
      simp [List.filter_cons, hm]
    · have hc : seen.contains u = false := by
        cases h2 : seen.contains u
        · rfl
        · exact absurd (List.elem_iff.1 h2) hm
      rw [dedupeGo]
      simp only [hc, Bool.false_eq_true, if_false]
      have hf : (u :: rest).filter (fun x => !(seen.contains x)) =
          u :: rest.filter (fun x => !(seen.contains x)) := by
        simp [List.filter_cons, hm]
      rw [hf, dedupFirst_cons, ih (u :: seen), List.filter_filter]
      congr 1
      apply congrArg
      apply List.filter_congr
      intro x _
      simp only [List.contains_cons, Bool.not_or]

/-- Membership in `dedupFirst` is membership in the input. -/
theorem mem_dedupFirst (a : String) : ∀ l : List String, a ∈ dedupFirst l ↔ a ∈ l := by
  intro l
  induction l using dedupFirst.induct with
  | case1 => rw [dedupFirst_nil]
  | case2 x xs ih =>
    rw [dedupFirst_cons]
    by_cases hax : a = x
    · simp [hax]
    · simp only [List.mem_cons, hax, false_or]
      rw [ih]
      simp [List.mem_filter, hax]

/-- `dedupFirst` produces a list without duplicates. -/
theorem dedupFirst_nodup : ∀ l : List String, (dedupFirst l).Nodup := by
  intro l
  induction l using dedupFirst.induct with
  | case1 => rw [dedupFirst_nil]; exact List.nodup_nil
  | case2 x xs ih =>
    rw [dedupFirst_cons]
    refine List.nodup_cons.2 ⟨?_, ih⟩
    intro hmem
    rw [mem_dedupFirst] at hmem
    have := (List.mem_filter.1 hmem).2
    simp at this

/-! ## Claim C1: the URL Normalizer -/

/-- Claim C1: for every pasted text input, `parse_urls` splits on line
boundaries, trims each line, excludes blank lines and lines whose first
non-whitespace character is `#`, and returns the remaining links in
first-occurrence order with exact-duplicate strings removed (the output equals
the first-occurrence deduplication of the kept trimmed lines, and is
duplicate-free with no blank or `#`-starting element); in particular, the
input `"https://a\n# comment\n\nhttps://b\nhttps://a"` yields exactly
`["https://a", "https://b"]`. -/
theorem parse_urls_claim :
    (∀ text : String,
      parse_urls text =
        dedupFirst (((splitlinesL text.data).map (fun l => String.mk (pyStripL l))).filter keepLine)
      ∧ (parse_urls text).Nodup
      ∧ ∀ u, u ∈ parse_urls text → u ≠ "" ∧ startsWithL "#".data u.data = false)
    ∧ parse_urls "https://a\n# comment\n\nhttps://b\nhttps://a" = ["https://a", "https://b"] := by
  constructor
  · intro text
    have he : parse_urls text =
        dedupFirst (((splitlinesL text.data).map (fun l => String.mk (pyStripL l))).filter keepLine) := by
      unfold parse_urls
      rw [dedupeGo_eq_dedupFirst]
      exact congrArg dedupFirst (List.filter_eq_self.2 (fun a _ => rfl))
    refine ⟨he, ?_, ?_⟩
    · rw [he]; exact dedupFirst_nodup _
    · intro u hu
      rw [he, mem_dedupFirst] at hu
      have hk := (List.mem_filter.1 hu).2
      refine ⟨?_, ?_⟩
      · intro heq
        subst heq
        simp [keepLine, startsWithL] at hk
      · cases hsw : startsWithL "#".data u.data
        · rfl
        · simp [keepLine, hsw] at hk
  · decide

/-- Witness for C1 at a concrete input. -/
theorem parse_urls_claim_witness : (parse_urls "x\ny\nx").Nodup :=
  (parse_urls_claim.1 "x\ny\nx").2.1

/-! ## Sanitizer lemmas and Claim C9 -/

/-- Every character emitted by `collapseRuns` is the replacement character or
a non-separator character of the input. -/
theorem collapseRuns_mem (sep : Char → Bool) (rep : Char) :
    ∀ (l : List Char) (b : Bool) (c : Char),
      c ∈ collapseRuns sep rep l b → c = rep ∨ (c ∈ l ∧ sep c = false) := by
  intro l
  induction l with
  | nil => intro b c h; simp [collapseRuns] at h
  | cons a rest ih =>
    intro b c h
    by_cases hs : sep a = true
    · cases b with
      | true =>
        simp only [collapseRuns, hs, if_true] at h
        rcases ih true c h with h1 | h2
        · exact Or.inl h1
        · exact Or.inr ⟨List.mem_cons_of_mem _ h2.1, h2.2⟩
      | false =>
        simp only [collapseRuns, hs, if_true] at h
        rcases List.mem_cons.1 h with h1 | h1
        · exact Or.inl h1
        · rcases ih true c h1 with h2 | h3
          · exact Or.inl h2
          · exact Or.inr ⟨List.mem_cons_of_mem _ h3.1, h3.2⟩
    · have hs' : sep a = false := by
        cases h2 : sep a
        · rfl
        · exact absurd h2 hs
      simp only [collapseRuns, hs', Bool.false_eq_true, if_false] at h
      rcases List.mem_cons.1 h with h1 | h1
      · subst h1
        exact Or.inr ⟨List.mem_cons_self _ _, hs'⟩
      · rcases ih false c h1 with h2 | h3
        · exact Or.inl h2
        · exact Or.inr ⟨List.mem_cons_of_mem _ h3.1, h3.2⟩

/-- Members of `stripWhileL p l` are members of `l`. -/
theorem mem_stripWhileL {p : Char → Bool} {l : List Char} {c : Char}
    (h : c ∈ stripWhileL p l) : c ∈ l := by
  unfold stripWhileL at h
  rw [List.mem_reverse] at h
  have h1 := (List.dropWhile_sublist (l := (l.dropWhile p).reverse) p).subset h
  rw [List.mem_reverse] at h1
  exact (List.dropWhile_sublist (l := l) p).subset h1

/-- The length of `stripWhileL p l` is at most that of `l`. -/
theorem stripWhileL_length_le (p : Char → Bool) (l : List Char) :
    (stripWhileL p l).length ≤ l.length := by
  unfold stripWhileL
  rw [List.length_reverse]
  calc ((l.dropWhile p).reverse.dropWhile p).length
      ≤ (l.dropWhile p).reverse.length := (List.dropWhile_sublist _).length_le
    _ = (l.dropWhile p).length := List.length_reverse _
    _ ≤ l.length := (List.dropWhile_sublist _).length_le

/-- The head of a `dropWhile p` result does not satisfy `p`. -/
theorem head_dropWhile_false (p : Char → Bool) (l : List Char) {c : Char}
    (h : (l.dropWhile p).head? = some c) : p c = false := by
  have hw := List.head?_dropWhile_not p l
  rw [h] at hw
  exact hw

/-- The last character of `stripWhileL p l` does not satisfy `p`. -/
theorem stripWhileL_last {p : Char → Bool} {l : List Char} {c : Char}
    (h : (stripWhileL p l).getLast? = some c) : p c = false := by
  unfold stripWhileL at h
  rw [List.getLast?_reverse] at h
  exact head_dropWhile_false p _ h

/-- The first character of `stripWhileL p l` does not satisfy `p`. -/
theorem stripWhileL_head {p : Char → Bool} {l : List Char} {c : Char}
    (h : (stripWhileL p l).head? = some c) : p c = false := by
  obtain ⟨t, ht⟩ := List.dropWhile_suffix (l := (l.dropWhile p).reverse) p
  have hl : l.dropWhile p = ((l.dropWhile p).reverse.dropWhile p).reverse ++ t.reverse := by
    have h2 := congrArg List.reverse ht
    simpa [List.reverse_append] using h2.symm
  unfold stripWhileL at h
  cases hs : ((l.dropWhile p).reverse.dropWhile p).reverse with
  | nil => rw [hs] at h; cases h
  | cons d rest =>
    rw [hs] at h hl
    have hd : d = c := by
      simpa using h
    have hh : (l.dropWhile p).head? = some c := by
      rw [hl, hd]
      rfl
    exact head_dropWhile_false p l hh

/-- Claim C9: for every input string, `slugify` (at its source default
maximum length 80) returns a string containing only word characters (the
underscore included), with no leading or trailing underscore, of length at
most the maximum, and never empty thanks to the fixed `"untitled"`
placeholder; in particular `"My: Cool/Mix!!"` yields `"My_CoolMix"` and an
input with no word characters yields the placeholder. -/
theorem slugify_claim :
    (∀ name : String,
      (∀ c ∈ (slugify name 80).data, isWordChar c = true)
      ∧ (slugify name 80).data.head? ≠ some '_'
      ∧ (slugify name 80).data.getLast? ≠ some '_'
      ∧ (slugify name 80).length ≤ 80
      ∧ slugify name 80 ≠ "")
    ∧ slugify "My: Cool/Mix!!" 80 = "My_CoolMix"
    ∧ slugify "!!!" 80 = "untitled" := by
  refine ⟨?_, by decide, by decide⟩
  intro name
  have hdata : (slugify name 80).data = slugifyL name.data 80 := rfl
  have hlen : (slugify name 80).length = (slugifyL name.data 80).length := rfl
  by_cases h3 : stripWhileL (fun c => c == '_')
      ((collapseRuns isSlugSep '_'
        (pyStripL (name.data.filter (fun c => isWordChar c || pyIsSpace c || c == '-'))) false).take 80) = []
  · have hres : slugifyL name.data 80 = "untitled".data := by
      simp only [slugifyL]
      rw [if_pos h3]
    refine ⟨?_, ?_, ?_, ?_, ?_⟩
    · intro c hc
      rw [hdata, hres] at hc
      exact (by decide : ∀ x ∈ "untitled".data, isWordChar x = true) c hc
    · rw [hdata, hres]
      decide
    · rw [hdata, hres]
      decide
    · rw [hlen, hres]
      decide
    · exact mk_ne_empty (by rw [hres]; decide)
  · have hres : slugifyL name.data 80 = stripWhileL (fun c => c == '_')
        ((collapseRuns isSlugSep '_'
          (pyStripL (name.data.filter (fun c => isWordChar c || pyIsSpace c || c == '-'))) false).take 80) := by
      simp only [slugifyL]
      rw [if_neg h3]
    refine ⟨?_, ?_, ?_, ?_, ?_⟩
    · intro c hc
      rw [hdata, hres] at hc
      have hc2 := mem_stripWhileL hc
      have hc3 := (List.take_sublist _ _).subset hc2
      rcases collapseRuns_mem _ _ _ _ _ hc3 with h1 | h2
      · subst h1; decide
      · obtain ⟨hmem, hsep⟩ := h2
        have hm2 := mem_stripWhileL hmem
        have hp := (List.mem_filter.1 hm2).2
        unfold isSlugSep at hsep
        rcases Bool.or_eq_false_iff.1 hsep with ⟨hsep1, hsep3⟩
        rcases Bool.or_eq_false_iff.1 hsep1 with ⟨hsp, _⟩
        rw [hsp, hsep3] at hp
        simpa using hp
    · intro hh
      rw [hdata, hres] at hh
      have := stripWhileL_head hh
      simp at this
    · intro hh
      rw [hdata, hres] at hh
      have := stripWhileL_last hh
      simp at this
    · rw [hlen, hres]
      calc (stripWhileL (fun c => c == '_') _).length
          ≤ _ := stripWhileL_length_le _ _
        _ ≤ 80 := List.length_take_le _ _
    · exact mk_ne_empty (by rw [hres]; exact h3)

/-- Witness for C9 at a concrete input. -/
theorem slugify_claim_witness : (slugify "a b" 80).length ≤ 80 :=
  (slugify_claim.1 "a b").2.2.2.1

/-! ## Non-emptiness of the paths produced by the worker -/

/-- The `.mp3` path derived from a prepared file name is non-empty. -/
theorem mp3_path_from_prepared_ne (prepared : String) :
    mp3_path_from_prepared prepared ≠ "" :=
  append_ne_empty_right _ (by decide)

/-- A collision-avoiding candidate name is non-empty. -/
theorem candName_ne (dir base : String) (n : Nat) : candName dir base n ≠ "" :=
  append_ne_empty_right _ (by decide)

/-- The path located by the file-location step is non-empty. -/
theorem findMp3Path_ne (fs : Fs) (dir vid mp3p : String) (h : mp3p ≠ "") :
    findMp3Path fs dir vid mp3p ≠ "" := by
  unfold findMp3Path
  split
  · exact h
  · split
    · exact join_ne_empty _ _
    · exact h

/-- The resolved `.mp3` path is non-empty. -/
theorem resolvedMp3_ne (fs : Fs) (dir : String) (top : TopInfo) :
    resolvedMp3 fs dir top ≠ "" :=
  findMp3Path_ne _ _ _ _ (mp3_path_from_prepared_ne _)

/-- The final path chosen by the rename step is non-empty whenever the
produced path is. -/
theorem renameStep_fst_ne (env : Env) (fs : Fs) (dir mp3 base : String) (h : mp3 ≠ "") :
    (renameStep env fs dir mp3 base).1 ≠ "" := by
  simp only [renameStep]
  split_ifs with h1 h2 h3
  · exact h
  · exact h
  · exact candName_ne _ _ _
  · exact append_ne_empty_right _ (by decide)

/-- When the rename step raises, the produced path and the file system are
kept unchanged. -/
theorem renameStep_fails (env : Env) (fs : Fs) (dir mp3 base : String)
    (h : env.renameFails = true) : renameStep env fs dir mp3 base = (mp3, fs) := by
  simp only [renameStep]
  split_ifs with h1
  · rfl
  · rfl

/-! ## Branch lemmas for `processInfo` -/

/-- The success branch of `processInfo`. -/
theorem processInfo_ok (url dir : String) (env : Env) (fs : Fs) (top : TopInfo)
    (hex : pyExists fs (resolvedMp3 fs dir top) = true) :
    processInfo url dir env fs top =
      ({ url := url, title := (selectInfo top).title, vidId := (selectInfo top).vidId,
         status := "ok",
         path := some (renameStep env fs dir (resolvedMp3 fs dir top) (targetBaseOf top)).1,
         error := none,
         filesize_mb := (env.getsize (renameStep env fs dir (resolvedMp3 fs dir top) (targetBaseOf top)).1).map
           (fun b => (b : ℚ) / (1024 * 1024)) },
       (renameStep env fs dir (resolvedMp3 fs dir top) (targetBaseOf top)).2) := by
  unfold processInfo
  rw [if_pos hex]

/-- The file-not-found branch of `processInfo`. -/
theorem processInfo_fail (url dir : String) (env : Env) (fs : Fs) (top : TopInfo)
    (hex : ¬ pyExists fs (resolvedMp3 fs dir top) = true) :
    processInfo url dir env fs top =
      ({ url := url, title := (selectInfo top).title, vidId := (selectInfo top).vidId,
         status := "failed", path := none,
         error := some "File MP3 tidak ditemukan setelah konversi.",
         filesize_mb := none }, fs) := by
  unfold processInfo
  rw [if_neg hex]

/-- Unfolding of `download_one` when the first extraction raises. -/
theorem download_one_raises (url dir : String) (env : Env) (fs : Fs) (de : Bool) (msg : String)
    (h : env.extract1 = ExtractResult.raises de msg) :
    download_one url dir env fs =
      ({ url := url, title := none, vidId := none, status := "failed", path := none,
         error := some ((if de then "DownloadError: " else "Error: ") ++ msg),
         filesize_mb := none }, fs) := by
  simp only [download_one, h]

/-- Unfolding of `download_one` when both extraction attempts return nothing,
the second by raising. -/
theorem download_one_fb_raises (url dir : String) (env : Env) (fs : Fs) (de : Bool) (msg : String)
    (h1 : env.extract1 = ExtractResult.noResult) (h2 : env.extract2 = ExtractResult.raises de msg) :
    download_one url dir env fs =
      ({ url := url, title := none, vidId := none, status := "failed", path := none,
         error := some ("Fallback extractor gagal: " ++ msg),
         filesize_mb := none }, fs) := by
  simp only [download_one, h1, h2]

/-- Unfolding of `download_one` when both extraction attempts return a falsy
result. -/
theorem download_one_fb_none (url dir : String) (env : Env) (fs : Fs)
    (h1 : env.extract1 = ExtractResult.noResult) (h2 : env.extract2 = ExtractResult.noResult) :
    download_one url dir env fs =
      ({ url := url, title := none, vidId := none, status := "failed", path := none,
         error := some "Tidak dapat mengambil metadata (fallback juga gagal).",
         filesize_mb := none }, fs) := by
  simp only [download_one, h1, h2]

/-- Unfolding of `download_one` when an extraction attempt yields an info
dictionary. -/
theorem download_one_ok (url dir : String) (env : Env) (fs : Fs) (top : TopInfo)
    (h : env.extract1 = ExtractResult.okInfo top ∨
      (env.extract1 = ExtractResult.noResult ∧ env.extract2 = ExtractResult.okInfo top)) :
    download_one url dir env fs = processInfo url dir env (fs ++ env.created) top := by
  rcases h with h1 | ⟨h1, h2⟩
  · simp only [download_one, h1]
  · simp only [download_one, h1, h2]

/-- Field invariants of the record built by `processInfo`: the status is `ok`
or `failed`, a non-empty path is present exactly in the `ok` case, a
non-empty error exactly in the `failed` case. -/
theorem processInfo_fields (url dir : String) (env : Env) (fs : Fs) (top : TopInfo) :
    ((processInfo url dir env fs top).1.status = "ok" ∨
      (processInfo url dir env fs top).1.status = "failed")
    ∧ ((∃ p, (processInfo url dir env fs top).1.path = some p ∧ p ≠ "") ↔
        (processInfo url dir env fs top).1.status = "ok")
    ∧ ((∃ e, (processInfo url dir env fs top).1.error = some e ∧ e ≠ "") ↔
        (processInfo url dir env fs top).1.status = "failed") := by
  by_cases hex : pyExists fs (resolvedMp3 fs dir top) = true
  · rw [processInfo_ok url dir env fs top hex]
    refine ⟨Or.inl rfl, ?_, ?_⟩
    · constructor
      · intro _; rfl
      · intro _
        exact ⟨_, rfl, renameStep_fst_ne _ _ _ _ _ (resolvedMp3_ne _ _ _)⟩
    · constructor
      · rintro ⟨e, he, _⟩; cases he
      · intro hco
        exact absurd (show ("ok" : String) = "failed" from hco) (by decide)
  · rw [processInfo_fail url dir env fs top hex]
    refine ⟨Or.inr rfl, ?_, ?_⟩
    · constructor
      · rintro ⟨p, hp, _⟩; cases hp
      · intro hco
        exact absurd (show ("failed" : String) = "ok" from hco) (by decide)
    · constructor
      · intro _; rfl
      · intro _
        exact ⟨"File MP3 tidak ditemukan setelah konversi.", rfl, by decide⟩

/-- Field invariants of the record returned by `download_one`. -/
theorem download_one_fields (url dir : String) (env : Env) (fs : Fs) :
    ((download_one url dir env fs).1.status = "ok" ∨
      (download_one url dir env fs).1.status = "failed")
    ∧ ((∃ p, (download_one url dir env fs).1.path = some p ∧ p ≠ "") ↔
        (download_one url dir env fs).1.status = "ok")
    ∧ ((∃ e, (download_one url dir env fs).1.error = some e ∧ e ≠ "") ↔
        (download_one url dir env fs).1.status = "failed") := by
  cases h1 : env.extract1 with
  | raises de msg =>
    rw [download_one_raises url dir env fs de msg h1]
    refine ⟨Or.inr rfl, ?_, ?_⟩
    · constructor
      · rintro ⟨p, hp, _⟩; cases hp
      · intro hco
        exact absurd (show ("failed" : String) = "ok" from hco) (by decide)
    · constructor
      · intro _; rfl
      · intro _
        refine ⟨(if de then "DownloadError: " else "Error: ") ++ msg, rfl, ?_⟩
        cases de
        · exact append_ne_empty_left _ (by decide)
        · exact append_ne_empty_left _ (by decide)
  | noResult =>
    cases h2 : env.extract2 with
    | raises de msg =>
      rw [download_one_fb_raises url dir env fs de msg h1 h2]
      refine ⟨Or.inr rfl, ?_, ?_⟩
      · constructor
        · rintro ⟨p, hp, _⟩; cases hp
        · intro hco
          exact absurd (show ("failed" : String) = "ok" from hco) (by decide)
      · constructor
        · intro _; rfl
        · intro _
          exact ⟨"Fallback extractor gagal: " ++ msg, rfl, append_ne_empty_left _ (by decide)⟩
    | noResult =>
      rw [download_one_fb_none url dir env fs h1 h2]
      refine ⟨Or.inr rfl, ?_, ?_⟩
      · constructor
        · rintro ⟨p, hp, _⟩; cases hp
        · intro hco
          exact absurd (show ("failed" : String) = "ok" from hco) (by decide)
      · constructor
        · intro _; rfl
        · intro _
          exact ⟨"Tidak dapat mengambil metadata (fallback juga gagal).", rfl, by decide⟩
    | okInfo top =>
      rw [download_one_ok url dir env fs top (Or.inr ⟨h1, h2⟩)]
      exact processInfo_fields url dir env (fs ++ env.created) top
  | okInfo top =>
    rw [download_one_ok url dir env fs top (Or.inl h1)]
    exact processInfo_fields url dir env (fs ++ env.created) top

/-! ## Claims C3, C10, C2: the Fetch Outcome record -/

/-- Claim C3: every Fetch Outcome record returned by `download_one` has a
non-empty resulting file path if and only if its status is `ok`, and a
non-empty error detail if and only if its status is `failed`. -/
theorem download_one_fields_claim (url dir : String) (env : Env) (fs : Fs) :
    ((∃ p, (download_one url dir env fs).1.path = some p ∧ p ≠ "") ↔
      (download_one url dir env fs).1.status = "ok")
    ∧ ((∃ e, (download_one url dir env fs).1.error = some e ∧ e ≠ "") ↔
      (download_one url dir env fs).1.status = "failed") :=
  ⟨(download_one_fields url dir env fs).2.1, (download_one_fields url dir env fs).2.2⟩

/-- Witness for C3 at a concrete failing environment. -/
theorem download_one_fields_claim_witness :
    (download_one "u" "out" envErr []).1.status = "failed" :=
  (download_one_fields_claim "u" "out" envErr []).2.1
    ⟨"DownloadError: boom", by decide, by decide⟩

/-- Claim C10: every record returned by `download_one` has status `ok` or
`failed`; although `pending` is the record's initial value, it is never
returned. -/
theorem download_one_status_claim (url dir : String) (env : Env) (fs : Fs) :
    (download_one url dir env fs).1.status ≠ "pending"
    ∧ ((download_one url dir env fs).1.status = "ok" ∨
       (download_one url dir env fs).1.status = "failed") := by
  have h := (download_one_fields url dir env fs).1
  refine ⟨?_, h⟩
  intro hp
  rcases h with h1 | h1
  · rw [hp] at h1; exact absurd h1 (by decide)
  · rw [hp] at h1; exact absurd h1 (by decide)

/-- Witness for C10 at a concrete environment. -/
theorem download_one_status_claim_witness :
    (download_one "u" "out" envErr []).1.status ≠ "pending" :=
  (download_one_status_claim "u" "out" envErr []).1

/-- Claim C2: every per-link failure inside `download_one` — extraction or
download failure (first attempt raising, fallback raising, both attempts
returning nothing; a transcode failure surfaces as one of these since the
transcoder runs inside the backend call) and post-conversion file-not-found —
is caught and recorded as a `failed` outcome with non-empty descriptive error
text, and the worker returns that record (it is a total function of its
environment) rather than raising. -/
theorem download_one_error_claim (url dir : String) (env : Env) (fs : Fs) :
    ((download_one url dir env fs).1.status = "ok" ∨
      (download_one url dir env fs).1.status = "failed")
    ∧ ((download_one url dir env fs).1.status = "failed" →
        ∃ e, (download_one url dir env fs).1.error = some e ∧ e ≠ "")
    ∧ (∀ de msg, env.extract1 = ExtractResult.raises de msg →
        (download_one url dir env fs).1.status = "failed"
        ∧ (download_one url dir env fs).1.error =
            some ((if de then "DownloadError: " else "Error: ") ++ msg))
    ∧ (∀ de msg, env.extract1 = ExtractResult.noResult →
        env.extract2 = ExtractResult.raises de msg →
        (download_one url dir env fs).1.status = "failed"
        ∧ (download_one url dir env fs).1.error = some ("Fallback extractor gagal: " ++ msg))
    ∧ (env.extract1 = ExtractResult.noResult → env.extract2 = ExtractResult.noResult →
        (download_one url dir env fs).1.status = "failed")
    ∧ (∀ top, (env.extract1 = ExtractResult.okInfo top ∨
          (env.extract1 = ExtractResult.noResult ∧ env.extract2 = ExtractResult.okInfo top)) →
        pyExists (fs ++ env.created) (resolvedMp3 (fs ++ env.created) dir top) = false →
        (download_one url dir env fs).1.status = "failed"
        ∧ (download_one url dir env fs).1.error =
            some "File MP3 tidak ditemukan setelah konversi.") := by
  refine ⟨(download_one_fields url dir env fs).1,
    (download_one_fields url dir env fs).2.2.2, ?_, ?_, ?_, ?_⟩
  · intro de msg h1
    rw [download_one_raises url dir env fs de msg h1]
    exact ⟨rfl, rfl⟩
  · intro de msg h1 h2
    rw [download_one_fb_raises url dir env fs de msg h1 h2]
    exact ⟨rfl, rfl⟩
  · intro h1 h2
    rw [download_one_fb_none url dir env fs h1 h2]
  · intro top h hex
    rw [download_one_ok url dir env fs top h]
    rw [processInfo_fail url dir env (fs ++ env.created) top (by rw [hex]; exact Bool.false_ne_true)]
    exact ⟨rfl, rfl⟩

/-- Witness for C2 at a concrete raising environment. -/
theorem download_one_error_claim_witness :
    (download_one "u" "out" envErr []).1.status = "failed" ∧
      (download_one "u" "out" envErr []).1.error = some "DownloadError: boom" := by
  have h := (download_one_error_claim "u" "out" envErr []).2.2.1 true "boom" rfl
  exact ⟨h.1, by rw [h.2]; decide⟩

/-! ## Claim C5: rename failure degrades gracefully -/

/-- Claim C5: if the rename operation in the worker fails (the environment's
rename step raises), the worker keeps the originally produced file path as
the outcome's path, still returns status `ok`, and leaves the file system
unchanged — the rename failure does not turn the outcome into an error. -/
theorem download_one_rename_failure_claim (url dir : String) (env : Env) (fs : Fs)
    (top : TopInfo)
    (h1 : env.extract1 = ExtractResult.okInfo top)
    (h2 : env.renameFails = true)
    (h3 : pyExists (fs ++ env.created) (resolvedMp3 (fs ++ env.created) dir top) = true) :
    (download_one url dir env fs).1.status = "ok"
    ∧ (download_one url dir env fs).1.path = some (resolvedMp3 (fs ++ env.created) dir top)
    ∧ (download_one url dir env fs).2 = fs ++ env.created := by
  rw [download_one_ok url dir env fs top (Or.inl h1)]
  rw [processInfo_ok url dir env (fs ++ env.created) top h3]
  rw [renameStep_fails env (fs ++ env.created) dir
    (resolvedMp3 (fs ++ env.created) dir top) (targetBaseOf top) h2]
  exact ⟨rfl, rfl, rfl⟩

/-- Witness for C5 at a concrete environment whose rename step raises. -/
theorem download_one_rename_failure_claim_witness :
    (download_one "u" "out" envRF []).1.status = "ok"
    ∧ (download_one "u" "out" envRF []).1.path = some "out/song1 - id1.mp3" := by
  have h := download_one_rename_failure_claim "u" "out" envRF []
    { self := infoA, entries := none } rfl rfl (by decide)
  refine ⟨h.1, ?_⟩
  rw [h.2.1]
  decide

/-! ## The collision-avoidance search (Claim C4 machinery) -/

/-- The fuel argument of `natStrGo` is irrelevant once it dominates the
value. -/
theorem natStrGo_congr : ∀ (n f1 f2 : Nat), n ≤ f1 → n ≤ f2 → natStrGo f1 n = natStrGo f2 n := by
  intro n
  induction n using Nat.strong_induction_on with
  | _ n ih =>
    intro f1 f2 h1 h2
    cases f1 with
    | zero =>
      cases f2 with
      | zero => rfl
      | succ f2 =>
        have hn : n = 0 := Nat.le_zero.1 h1
        subst hn
        simp [natStrGo]
    | succ f1 =>
      cases f2 with
      | zero =>
        have hn : n = 0 := Nat.le_zero.1 h2
        subst hn
        simp [natStrGo]
      | succ f2 =>
        by_cases hlt : n < 10
        · simp [natStrGo, hlt]
        · simp only [natStrGo, hlt, if_false]
          have hd : n / 10 < n := Nat.div_lt_self (by omega) (by omega)
          rw [ih (n / 10) hd f1 f2 (by omega) (by omega)]

/-- Unfolding of `natStrL` for a single digit. -/
theorem natStrL_lt {n : Nat} (h : n < 10) : natStrL n = [Char.ofNat (48 + n)] := by
  unfold natStrL
  cases n with
  | zero => simp [natStrGo]
  | succ m => simp [natStrGo, h]

/-- Unfolding of `natStrL` for a multi-digit number. -/
theorem natStrL_ge {n : Nat} (h : ¬ n < 10) :
    natStrL n = natStrL (n / 10) ++ [Char.ofNat (48 + n % 10)] := by
  unfold natStrL
  obtain ⟨m, rfl⟩ : ∃ m, n = m + 1 := ⟨n - 1, by omega⟩
  simp only [natStrGo]
  rw [if_neg h]
  have hd : (m + 1) / 10 < m + 1 := Nat.div_lt_self (by omega) (by omega)
  rw [natStrGo_congr ((m + 1) / 10) m ((m + 1) / 10) (by omega) (le_refl _)]

/-- The decimal digit list is never empty. -/
theorem natStrL_ne_nil (n : Nat) : natStrL n ≠ [] := by
  by_cases h : n < 10
  · rw [natStrL_lt h]; simp
  · rw [natStrL_ge h]; simp

/-- Digit characters are distinct for distinct digits. -/
theorem digit_inj10 : ∀ a b : Fin 10,
    Char.ofNat (48 + a.val) = Char.ofNat (48 + b.val) → a = b := by
  decide

/-- The decimal representation of natural numbers is injective. -/
theorem natStrL_inj : ∀ a b : Nat, natStrL a = natStrL b → a = b := by
  intro a
  induction a using Nat.strong_induction_on with
  | _ a ih =>
    intro b h
    by_cases ha : a < 10 <;> by_cases hb : b < 10
    · rw [natStrL_lt ha, natStrL_lt hb] at h
      have h1 : Char.ofNat (48 + a) = Char.ofNat (48 + b) := by simpa using h
      exact congrArg Fin.val (digit_inj10 ⟨a, ha⟩ ⟨b, hb⟩ h1)
    · rw [natStrL_lt ha, natStrL_ge hb] at h
      cases hnl : natStrL (b / 10) with
      | nil => exact absurd hnl (natStrL_ne_nil _)
      | cons c t =>
        rw [hnl] at h
        simp at h
    · rw [natStrL_ge ha, natStrL_lt hb] at h
      cases hnl : natStrL (a / 10) with
      | nil => exact absurd hnl (natStrL_ne_nil _)
      | cons c t =>
        rw [hnl] at h
        simp at h
    · rw [natStrL_ge ha, natStrL_ge hb] at h
      obtain ⟨h1, h2⟩ := List.append_inj' h (by simp)
      have hd : a / 10 < a := Nat.div_lt_self (by omega) (by omega)
      have hq := ih (a / 10) hd (b / 10) h1
      have h2' : Char.ofNat (48 + a % 10) = Char.ofNat (48 + b % 10) := by simpa using h2
      have hm : a % 10 = b % 10 := congrArg Fin.val
        (digit_inj10 ⟨a % 10, by omega⟩ ⟨b % 10, by omega⟩ h2')
      have ha10 := Nat.div_add_mod a 10
      have hb10 := Nat.div_add_mod b 10
      omega

/-- Candidate names with distinct indices are distinct. -/
theorem candName_inj (dir base : String) {m n : Nat}
    (h : candName dir base m = candName dir base n) : m = n := by
  unfold candName at h
  have hd := congrArg String.data h
  simp only [String.data_append, data_mk] at hd
  have h1 := List.append_cancel_right hd
  have h2 := List.append_cancel_left h1
  exact natStrL_inj _ _ h2

/-- For a non-empty path, `pyExists` is just file-system membership. -/
theorem pyExists_ne (fs : Fs) {p : String} (h : p ≠ "") : pyExists fs p = fs.contains p := by
  unfold pyExists
  have hb : (p == "") = false := by
    cases hb2 : p == ""
    · rfl
    · exact absurd (eq_of_beq hb2) h
  rw [hb]
  simp

/-- Pigeonhole: among the first `fs.length + 1` candidate names, one is
unused. -/
theorem exists_cand_free (fs : Fs) (dir base : String) :
    ∃ m, 1 ≤ m ∧ m < fs.length + 2 ∧ pyExists fs (candName dir base m) = false := by
  by_contra hcon
  push_neg at hcon
  have hall : ∀ m, 1 ≤ m → m < fs.length + 2 → candName dir base m ∈ fs := by
    intro m hm1 hm2
    have h := hcon m hm1 hm2
    have ht : pyExists fs (candName dir base m) = true := by
      cases hb : pyExists fs (candName dir base m)
      · exact absurd hb h
      · rfl
    rw [pyExists_ne fs (candName_ne dir base m)] at ht
    exact List.elem_iff.1 ht
  have hnd : ((List.range (fs.length + 1)).map (fun i => candName dir base (i + 1))).Nodup := by
    refine List.Nodup.map ?_ (List.nodup_range _)
    intro i j hij
    have := candName_inj dir base hij
    omega
  have hsub : ((List.range (fs.length + 1)).map (fun i => candName dir base (i + 1))) ⊆ fs := by
    intro x hx
    rw [List.mem_map] at hx
    obtain ⟨i, hi, rfl⟩ := hx
    rw [List.mem_range] at hi
    exact hall (i + 1) (by omega) (by omega)
  have hle := (List.subperm_of_subset hnd hsub).length_le
  simp only [List.length_map, List.length_range] at hle
  omega

/-- Correctness of the fuel-based search: given a free candidate within the
fuel window, the search returns the least free index at or above the start. -/
theorem firstFreeGo_spec (fs : Fs) (dir base : String) :
    ∀ (fuel n : Nat),
      (∃ m, n ≤ m ∧ m < n + fuel ∧ pyExists fs (candName dir base m) = false) →
      pyExists fs (candName dir base (firstFreeGo fs dir base fuel n)) = false
      ∧ n ≤ firstFreeGo fs dir base fuel n
      ∧ ∀ m, n ≤ m → m < firstFreeGo fs dir base fuel n →
          pyExists fs (candName dir base m) = true := by
  intro fuel
  induction fuel with
  | zero =>
    rintro n ⟨m, h1, h2, _⟩
    omega
  | succ fuel ih =>
    rintro n ⟨m, hm1, hm2, hm3⟩
    by_cases hc : pyExists fs (candName dir base n) = true
    · have hstep : firstFreeGo fs dir base (fuel + 1) n = firstFreeGo fs dir base fuel (n + 1) := by
        simp [firstFreeGo, hc]
      have hmn : m ≠ n := by
        intro he
        rw [he] at hm3
        rw [hm3] at hc
        cases hc
      have ihr := ih (n + 1) ⟨m, by omega, by omega, hm3⟩
      rw [hstep]
      refine ⟨ihr.1, by omega, ?_⟩
      intro k hk1 hk2
      by_cases hkn : k = n
      · rw [hkn]; exact hc
      · exact ihr.2.2 k (by omega) hk2
    · have hcf : pyExists fs (candName dir base n) = false := by
        cases hb : pyExists fs (candName dir base n)
        · rfl
        · exact absurd hb hc
      have hstep : firstFreeGo fs dir base (fuel + 1) n = n := by
        simp [firstFreeGo, hcf]
      rw [hstep]
      refine ⟨hcf, le_refl n, ?_⟩
      intro k hk1 hk2
      omega

/-- The disambiguator search of the rename step finds the least unused
index, starting from 1. -/
theorem firstFree_spec (fs : Fs) (dir base : String) :
    pyExists fs (candName dir base (firstFree fs dir base)) = false
    ∧ 1 ≤ firstFree fs dir base
    ∧ ∀ m, 1 ≤ m → m < firstFree fs dir base →
        pyExists fs (candName dir base m) = true := by
  obtain ⟨m, h1, h2, h3⟩ := exists_cand_free fs dir base
  exact firstFreeGo_spec fs dir base (fs.length + 1) 1 ⟨m, h1, by omega, h3⟩

/-! ## Claim C4: collision avoidance in the rename step -/

/-- Claim C4: if a file with the exact target name `"Artist - Title.mp3"`
already exists, the rename step appends a parenthesised numeric
disambiguator, incrementing from 1 until an unused name is found, and renames
to that name, leaving the pre-existing file in place; consequently, for two
successful fetches sanitizing to the same base name (`envA` then `envB`), the
second one's final file name carries the `(1)` disambiguator and both files
coexist on disk. -/
theorem rename_collision_claim :
    (∀ (env : Env) (fs : Fs) (dir base mp3 : String),
      env.renameFails = false →
      mp3 ≠ dir ++ "/" ++ base ++ ".mp3" →
      pyExists fs (dir ++ "/" ++ base ++ ".mp3") = true →
      (renameStep env fs dir mp3 base).1 = candName dir base (firstFree fs dir base)
      ∧ 1 ≤ firstFree fs dir base
      ∧ pyExists fs (candName dir base (firstFree fs dir base)) = false
      ∧ (∀ m, 1 ≤ m → m < firstFree fs dir base →
          pyExists fs (candName dir base m) = true)
      ∧ (dir ++ "/" ++ base ++ ".mp3") ∈ (renameStep env fs dir mp3 base).2
      ∧ candName dir base (firstFree fs dir base) ∈ (renameStep env fs dir mp3 base).2)
    ∧ (download_one "u1" "out" envA []).1.path = some "out/A - T.mp3"
    ∧ (download_one "u2" "out" envB (download_one "u1" "out" envA []).2).1.path =
        some "out/A - T (1).mp3"
    ∧ "out/A - T.mp3" ∈ (download_one "u2" "out" envB (download_one "u1" "out" envA []).2).2
    ∧ "out/A - T (1).mp3" ∈
        (download_one "u2" "out" envB (download_one "u1" "out" envA []).2).2 := by
  refine ⟨?_, by decide, by decide, by decide, by decide⟩
  intro env fs dir base mp3 hrf hne hex
  have hr : renameStep env fs dir mp3 base =
      (candName dir base (firstFree fs dir base),
        (fs.erase mp3) ++ [candName dir base (firstFree fs dir base)]) := by
    simp only [renameStep]
    rw [if_neg hne, if_neg (by rw [hrf]; exact Bool.false_ne_true), if_pos hex]
  obtain ⟨hf1, hf2, hf3⟩ := firstFree_spec fs dir base
  rw [hr]
  refine ⟨rfl, hf2, hf1, hf3, ?_, ?_⟩
  · apply List.mem_append_left
    rw [List.mem_erase_of_ne (fun hcontra => hne hcontra.symm)]
    have hc : fs.contains (dir ++ "/" ++ base ++ ".mp3") = true := by
      rw [pyExists_ne fs (append_ne_empty_right _ (by decide))] at hex
      exact hex
    exact List.elem_iff.1 hc
  · exact List.mem_append_right _ (by simp)

/-- Witness for C4's rename-step property at a concrete collision. -/
theorem rename_collision_claim_witness :
    (renameStep envA ["out/A - T.mp3"] "out" "out/x.mp3" "A - T").1 = "out/A - T (1).mp3" := by
  have h := rename_collision_claim.1 envA ["out/A - T.mp3"] "out" "A - T" "out/x.mp3"
    rfl (by decide) (by decide)
  rw [h.1]
  decide

/-! ## Claims C6 and C7: the Archive Builder -/

/-- The write loop of `make_zip_bytes` appends, in input order, one entry per
truthy existing path, keeping the compression settings. -/
theorem make_zip_go (fs : Fs) (paths : List String) (z : ZipFile) :
    paths.foldl (zipStep fs) z =
      { compression := z.compression, compresslevel := z.compresslevel,
        entries := z.entries ++ (paths.filter (fun p => pyExists fs p)).map
          (fun p => { src := p, arcname := basename p }) } := by
  induction paths generalizing z with
  | nil => simp
  | cons p rest ih =>
    rw [List.foldl_cons]
    have hc : (!(p == "") && pyExists fs p) = pyExists fs p := by
      unfold pyExists
      cases hpe : p == "" <;> simp [hpe]
    by_cases hp : pyExists fs p = true
    · have hstep : zipStep fs z p = zipWrite z p (basename p) := by
        unfold zipStep
        rw [hc, if_pos hp]
      rw [hstep, ih]
      simp [zipWrite, List.filter_cons, hp, List.append_assoc]
    · have hpf : pyExists fs p = false := by
        cases hb : pyExists fs p
        · rfl
        · exact absurd hb hp
      have hstep : zipStep fs z p = z := by
        unfold zipStep
        rw [hc, hpf]
        simp
      rw [hstep, ih]
      simp [List.filter_cons, hpf]

/-- The archive produced by `make_zip_bytes`, in closed form. -/
theorem make_zip_bytes_eq (fs : Fs) (paths : List String) :
    make_zip_bytes fs paths =
      { compression := ZipMethod.deflated, compresslevel := 9,
        entries := (paths.filter (fun p => pyExists fs p)).map
          (fun p => { src := p, arcname := basename p }) } := by
  unfold make_zip_bytes
  rw [make_zip_go]
  simp

/-- Claim C6: for every ordered path list, `make_zip_bytes` produces an
archive whose entries are exactly the existing input paths (a path that does
not exist — or is empty, which never exists — is silently omitted), in input
order, each stored flat under its base name (no `/` in any stored name), with
deflate compression at the maximum level 9. -/
theorem make_zip_claim (fs : Fs) (paths : List String) :
    (make_zip_bytes fs paths).entries =
      (paths.filter (fun p => pyExists fs p)).map (fun p => { src := p, arcname := basename p })
    ∧ (∀ p : String, (∃ e ∈ (make_zip_bytes fs paths).entries, e.src = p) ↔
        (p ∈ paths ∧ pyExists fs p = true))
    ∧ (∀ e ∈ (make_zip_bytes fs paths).entries, ∀ c ∈ e.arcname.data, c ≠ '/')
    ∧ (make_zip_bytes fs paths).compression = ZipMethod.deflated
    ∧ (make_zip_bytes fs paths).compresslevel = 9 := by
  rw [make_zip_bytes_eq]
  refine ⟨rfl, ?_, ?_, rfl, rfl⟩
  · intro p
    constructor
    · rintro ⟨e, he, hsrc⟩
      rw [List.mem_map] at he
      obtain ⟨q, hq, rfl⟩ := he
      have hqp : q = p := hsrc
      subst hqp
      exact ⟨(List.mem_filter.1 hq).1, (List.mem_filter.1 hq).2⟩
    · rintro ⟨hp, hex⟩
      refine ⟨{ src := p, arcname := basename p }, ?_, rfl⟩
      rw [List.mem_map]
      exact ⟨p, List.mem_filter.2 ⟨hp, hex⟩, rfl⟩
  · intro e he c hc
    rw [List.mem_map] at he
    obtain ⟨q, _, rfl⟩ := he
    have hc2 : c ∈ basenameL q.data := hc
    unfold basenameL at hc2
    rw [List.mem_reverse] at hc2
    have hpred := List.mem_takeWhile_imp hc2
    intro hslash
    rw [hslash] at hpred
    simp at hpred

/-- Witness for C6 at a concrete path list with one missing path. -/
theorem make_zip_claim_witness :
    (make_zip_bytes ["a.mp3"] ["a.mp3", "missing"]).entries =
      [{ src := "a.mp3", arcname := "a.mp3" }] := by
  rw [(make_zip_claim ["a.mp3"] ["a.mp3", "missing"]).1]
  decide

/-- Counterexample to Claim C7 as stated: with a duplicated existing input
path, `make_zip_bytes` adds the same entry twice (the entry list is not
duplicate-free). -/
theorem make_zip_dup_counterexample :
    (make_zip_bytes ["x.mp3"] ["x.mp3", "x.mp3"]).entries =
      [{ src := "x.mp3", arcname := "x.mp3" }, { src := "x.mp3", arcname := "x.mp3" }]
    ∧ ¬ (make_zip_bytes ["x.mp3"] ["x.mp3", "x.mp3"]).entries.Nodup := by
  refine ⟨by decide, ?_⟩
  intro h
  have : ¬ ([{ src := "x.mp3", arcname := "x.mp3" },
      { src := "x.mp3", arcname := "x.mp3" }] : List ZipEntry).Nodup := by decide
  exact this (by
    have he : (make_zip_bytes ["x.mp3"] ["x.mp3", "x.mp3"]).entries =
        [{ src := "x.mp3", arcname := "x.mp3" }, { src := "x.mp3", arcname := "x.mp3" }] := by
      decide
    rwa [he] at h)

/-- Claim C7 amended: `make_zip_bytes` performs no deduplication — each
occurrence of an existing path in the input list adds its own entry, so the
number of entries written for a path equals its number of occurrences among
the existing inputs. -/
theorem make_zip_count_claim (fs : Fs) (paths : List String) (p : String) :
    ((make_zip_bytes fs paths).entries.countP (fun e => e.src == p)) =
      ((paths.filter (fun q => pyExists fs q)).countP (fun q => q == p)) := by
  rw [make_zip_bytes_eq]
  simp only [List.countP_map]
  rfl

/-- Witness for the amended C7 at a duplicated input. -/
theorem make_zip_count_claim_witness :
    ((make_zip_bytes ["x.mp3"] ["x.mp3", "x.mp3"]).entries.countP
      (fun e => e.src == "x.mp3")) = 2 := by
  rw [make_zip_count_claim ["x.mp3"] ["x.mp3", "x.mp3"] "x.mp3"]
  decide

/-! ## Claim C8: the link-to-group mapping -/

/-- Looking up in a map extended on the right by one binding. -/
theorem lookup_append_single (m : List (String × String)) (k v u : String) :
    List.lookup u (m ++ [(k, v)]) =
      match List.lookup u m with
      | some t => some t
      | none => if u == k then some v else none := by
  induction m with
  | nil =>
    simp only [List.nil_append, List.lookup_nil]
    rw [List.lookup_cons]
    cases hu : u == k <;> simp [hu]
  | cons a rest ih =>
    obtain ⟨k1, v1⟩ := a
    rw [List.cons_append, List.lookup_cons, List.lookup_cons]
    cases hu : u == k1 <;> simp [hu, ih]

/-- The inner insertion loop of `expand_playlists`: a link already present
keeps its binding, a fresh link contained in the playlist is bound to that
playlist's title. -/
theorem addStep_fold_lookup (ptitle : String) (vurls : List String) :
    ∀ (m : List (String × String)) (c : Nat) (u : String),
      List.lookup u (vurls.foldl (addStep ptitle) (m, c)).1 =
        match List.lookup u m with
        | some t => some t
        | none => if u ∈ vurls then some ptitle else none := by
  induction vurls with
  | nil =>
    intro m c u
    simp only [List.foldl_nil]
    cases h : List.lookup u m <;> simp [h]
  | cons vu rest ih =>
    intro m c u
    rw [List.foldl_cons]
    by_cases hvu : (List.lookup vu m).isSome
    · have hstep : addStep ptitle (m, c) vu = (m, c) := by
        unfold addStep
        rw [if_pos hvu]
      rw [hstep, ih m c u]
      cases hum : List.lookup u m with
      | some t => simp
      | none =>
        have hne : ¬ u = vu := by
          intro h
          rw [← h, hum] at hvu
          simp at hvu
        simp [List.mem_cons, hne]
    · have hstep : addStep ptitle (m, c) vu = (m ++ [(vu, ptitle)], c + 1) := by
        unfold addStep
        rw [if_neg hvu]
      rw [hstep, ih (m ++ [(vu, ptitle)]) (c + 1) u, lookup_append_single]
      cases hum : List.lookup u m with
      | some t => simp
      | none =>
        cases hue : u == vu
        · have hne : ¬ u = vu := by
            intro h
            rw [h] at hue
            simp at hue
          simp [hue, List.mem_cons, hne]
        · have heq : u = vu := eq_of_beq hue
          simp [hue, heq, List.mem_cons]

/-- The outer loop of `expand_playlists`: lookups in the final map fall back
to the first playlist in the remaining list containing the link. -/
theorem expand_go (fetch : String → Option (String × List String)) (rest : List String) :
    ∀ (m : List (String × String)) (s : List (String × Nat × String)) (u : String),
      List.lookup u (rest.foldl (expandStep fetch) (m, s)).1 =
        match List.lookup u m with
        | some t => some t
        | none => firstGroup fetch rest u := by
  induction rest with
  | nil =>
    intro m s u
    simp only [List.foldl_nil]
    cases h : List.lookup u m <;> simp [h, firstGroup]
  | cons purl prest ih =>
    intro m s u
    rw [List.foldl_cons]
    cases hf : fetch purl with
    | none =>
      have hstep : expandStep fetch (m, s) purl =
          (m, s ++ [("Gagal baca playlist (" ++ purl ++ ")", 0, purl)]) := by
        unfold expandStep
        rw [hf]
      rw [hstep, ih m _ u]
      cases hum : List.lookup u m <;> simp [hum, firstGroup, hf]
    | some pr =>
      have hstep : expandStep fetch (m, s) purl =
          ((addGroupLinks m pr.1 pr.2).1, s ++ [(pr.1, (addGroupLinks m pr.1 pr.2).2, purl)]) := by
        unfold expandStep
        rw [hf]
      rw [hstep, ih _ _ u]
      unfold addGroupLinks
      rw [addStep_fold_lookup pr.1 pr.2 m 0 u]
      cases hum : List.lookup u m with
      | some t => simp
      | none =>
        by_cases hu : u ∈ pr.2
        · simp [hu, firstGroup, hf]
        · simp [hu, firstGroup, hf]

/-- Claim C8: in the link-to-group mapping built by `expand_playlists`, for
every sequence of playlist expansion results, a link keeps the title of the
first successfully expanded playlist containing it — a later playlist
containing the same link never overwrites the existing group
(insert-if-absent semantics). -/
theorem expand_playlists_claim (fetch : String → Option (String × List String))
    (pl_urls : List String) (u : String) :
    List.lookup u (expand_playlists fetch pl_urls).1 = firstGroup fetch pl_urls u := by
  unfold expand_playlists
  rw [expand_go fetch pl_urls [] [] u]
  rfl

/-- Witness for C8 at a concrete playlist oracle. -/
theorem expand_playlists_claim_witness :
    List.lookup "v1" (expand_playlists fetchC ["pl1"]).1 = some "G" := by
  rw [expand_playlists_claim fetchC ["pl1"] "v1"]
  decide
